import Mathlib

/-!
Verification development for the Isaac command-routing core.

Shallow embedding of the C++ sources:
  src/core/tier_validator.{hpp,cpp}   (TierValidator)
  src/core/command_router.{hpp,cpp}   (CommandRouter, CommandResult)
  src/core/strategies.{hpp,cpp}       (strategy variants)
  src/core/routing/config_strategy.cpp
  src/core/routing/device_routing_strategy.cpp
  src/core/routing/task_mode_strategy.cpp
  src/core/routing/agentic_mode_strategy.cpp

Strings are modelled as `List Char` (`Str`).  The shell executor is an
oracle `Str → CommandResult`; every strategy execution additionally
returns the list of command lines it passed to `ShellAdapter::execute`,
in call order, so that "the shell observes zero invocations" is the
trace being `[]`.  Safety tiers (C++ `float`, always small decimals such
as 2.5) are modelled as `Rat`.
-/

namespace Isaac

/-- Strings as character lists. -/
abbrev Str := List Char

/-- C locale `std::isspace`: space, \t, \n, \v, \f, \r. -/
def isCppSpace (c : Char) : Bool :=
  c == ' ' || c == '\t' || c == '\n' || c == '\x0b' || c == '\x0c' || c == '\r'

/-- ASCII `::tolower` on one character. -/
def lowerChar (c : Char) : Char :=
  if 'A' ≤ c ∧ c ≤ 'Z' then Char.ofNat (c.toNat + 32) else c

/-- `std::transform(..., ::tolower)` over a whole string. -/
def lowerStr (s : Str) : Str := s.map lowerChar

/-- Skip leading whitespace (what `istringstream >>` does before a token). -/
def dropSpaces : Str → Str
  | [] => []
  | c :: cs => if isCppSpace c then dropSpaces cs else c :: cs

/-- Take the maximal leading run of non-whitespace characters. -/
def takeTok : Str → Str
  | [] => []
  | c :: cs => if isCppSpace c then [] else c :: takeTok cs

/-- Drop the maximal leading run of non-whitespace characters. -/
def dropNonSp : Str → Str
  | [] => []
  | c :: cs => if isCppSpace c then c :: cs else dropNonSp cs

/-- The first whitespace-delimited token (a single `istringstream >>`
extraction); empty when the string is empty or all whitespace. -/
def firstTok (s : Str) : Str := takeTok (dropSpaces s)

/-- All whitespace-delimited tokens, i.e. repeated `istringstream >>`
extraction until the stream is exhausted.  Structural recursion on a
fuel argument so the definition evaluates inside the kernel; the fuel
`s.length` always suffices because every recursive call strictly
shortens the string. -/
def tokensAux : Nat → Str → List Str
  | 0, _ => []
  | _ + 1, [] => []
  | fuel + 1, c :: cs =>
    if isCppSpace c then tokensAux fuel cs
    else (c :: takeTok cs) :: tokensAux fuel (dropNonSp cs)

/-- All whitespace-delimited tokens of a string. -/
def tokens (s : Str) : List Str := tokensAux s.length s

/-- Value of a digit string (what `std::stof` does to the integer and
fractional digit groups of the tier labels). -/
def digitsVal (s : Str) : Nat := s.foldl (fun a c => a * 10 + (c.toNat - 48)) 0

/-- `std::stof` on the decimal tier labels occurring in the rule table
(strings matching `\d+(\.\d+)?`, e.g. "1", "2.5"): integer part plus
fractional part scaled by a power of ten.  `mkRat` is used (rather than
`Rat` division) so the value reduces inside the kernel. -/
def stof (s : Str) : Rat :=
  let ip := s.takeWhile (fun c => c != '.')
  let fp := (s.dropWhile (fun c => c != '.')).drop 1
  mkRat (digitsVal ip * 10 ^ fp.length + digitsVal fp) (10 ^ fp.length)

/-- `TierValidator::load_hardcoded_defaults` (tier_validator.cpp): the
built-in fallback rule table.  The C++ container is a
`std::map<std::string, std::vector<std::string>>`, which iterates in
ascending key order "1" < "2" < "2.5" < "3" < "4"; the entries below are
listed in exactly that iteration order.  Note "Remove-Item" occurs in
both the "3" and the "4" alias lists. -/
def tier_defaults : List (Str × List Str) :=
  [ ("1".data, (["ls", "cd", "clear", "cls", "pwd", "echo", "cat", "type",
      "Get-ChildItem", "Set-Location", "Get-Location"]).map String.data),
    ("2".data, (["grep", "Select-String", "head", "tail", "sort", "uniq"]).map String.data),
    ("2.5".data, (["find", "sed", "awk", "Where-Object", "ForEach-Object"]).map String.data),
    ("3".data, (["cp", "mv", "git", "npm", "pip", "reset",
      "Copy-Item", "Move-Item", "New-Item", "Remove-Item"]).map String.data),
    ("4".data, (["rm", "del", "format", "dd", "Remove-Item", "Format-Volume",
      "Clear-Disk"]).map String.data) ]

/-- The tier scan of `TierValidator::get_tier`: for each (tier string,
alias list) entry in iteration order, if any alias case-folds to the
base command, return `stof` of that tier string. -/
def findTier (base : Str) : List (Str × List Str) → Option Rat
  | [] => none
  | (t, cmds) :: rest =>
    if cmds.any (fun c => lowerStr c == base) then some (stof t)
    else findTier base rest

/-- `TierValidator::get_tier` (tier_validator.cpp lines 15-45),
parameterised by the loaded rule table: empty or all-whitespace input
gives 3.0; otherwise the case-folded first token is looked up in the
table; no match gives 3.0. -/
def get_tier (table : List (Str × List Str)) (command : Str) : Rat :=
  if command.all isCppSpace then 3
  else
    match findTier (lowerStr (firstTok command)) table with
    | some t => t
    | none => 3

/-- `TierValidator::is_safe`: tier ≤ 2. -/
def is_safe (table : List (Str × List Str)) (command : Str) : Bool :=
  decide (get_tier table command ≤ 2)

/-- `TierValidator::requires_confirmation`: tier == 2.5 exactly. -/
def requires_confirmation (table : List (Str × List Str)) (command : Str) : Bool :=
  decide (get_tier table command = mkRat 5 2)

/-- `TierValidator::requires_validation`: tier ≥ 3. -/
def requires_validation (table : List (Str × List Str)) (command : Str) : Bool :=
  decide (3 ≤ get_tier table command)

/-- `CommandResult` (command_router.hpp): `{success, output, exit_code}`. -/
structure CommandResult where
  success : Bool
  output : Str
  exit_code : Int
deriving DecidableEq

/-- The shell-executor collaborator, as an oracle from command line to
result (`ShellAdapter::execute`). -/
abbrev ShellExec := Str → CommandResult

/-- The thirteen strategy variants registered by
`CommandRouter::load_strategies`. -/
inductive Strategy where
  | pipe
  | cd
  | forceExecution
  | exitQuit
  | config
  | deviceRouting
  | exitBlocker
  | taskMode
  | agenticMode
  | metaCommand
  | naturalLanguage
  | unixAlias
  | tierExecution
deriving DecidableEq, Fintype

/-- Each strategy's fixed priority (strategies.hpp, config_strategy.hpp):
the constructor argument passed to `BaseStrategy`. -/
def Strategy.priority : Strategy → Int
  | .pipe => 10
  | .cd => 15
  | .forceExecution => 20
  | .exitQuit => 25
  | .config => 35
  | .deviceRouting => 40
  | .exitBlocker => 40
  | .taskMode => 45
  | .agenticMode => 48
  | .metaCommand => 50
  | .naturalLanguage => 55
  | .unixAlias => 60
  | .tierExecution => 100

/-- Each strategy's `can_handle` predicate, transcribed from
strategies.hpp / config_strategy.hpp. -/
def Strategy.canHandle : Strategy → Str → Bool
  | .pipe, input => input.contains '|'
  | .cd, input => List.isPrefixOf "cd ".data input || input == "cd".data
  | .forceExecution, input =>
      match input with
      | c :: _ => c == '!'
      | [] => false
  | .exitQuit, input =>
      let lw := lowerStr input
      lw == "exit".data || lw == "quit".data || lw == "q".data ||
      lw == "/exit".data || lw == "/quit".data || lw == "/q".data
  | .config, input => List.isPrefixOf "/config".data input
  | .deviceRouting, input =>
      match input with
      | c :: _ => c == '!'
      | [] => false
  | .exitBlocker, _ => false
  | .taskMode, input => List.isPrefixOf "isaac task:".data input
  | .agenticMode, input =>
      List.isPrefixOf "isaac agent:".data input ||
      List.isPrefixOf "isaac agentic:".data input
  | .metaCommand, input =>
      match input with
      | c :: _ => c == '/'
      | [] => false
  | .naturalLanguage, input => List.isPrefixOf "isaac".data (lowerStr input)
  | .unixAlias, _ => false
  | .tierExecution, _ => true

/-- Each strategy's `get_help` text; `ExitBlockerStrategy` and
`UnixAliasStrategy` inherit the empty base-class default. -/
def Strategy.helpText : Strategy → Str
  | .pipe => "Pipe commands: cmd1 | cmd2".data
  | .cd => "Change directory: cd <path>".data
  | .forceExecution => "Force execute: !command".data
  | .exitQuit => "Exit shell: exit, quit, q".data
  | .config => "Configuration commands: /config set/get/list".data
  | .deviceRouting => "Device routing: !device command".data
  | .exitBlocker => []
  | .taskMode => "Task mode: isaac task: <description>".data
  | .agenticMode => "Agentic mode: isaac agent: <query>".data
  | .metaCommand => "Meta commands: /help, /status, etc.".data
  | .naturalLanguage => "AI queries: isaac <question>".data
  | .unixAlias => []
  | .tierExecution => "Shell commands with safety validation".data

/-- `CommandRouter::get_help` over a strategy list: the header plus a
bulleted line per strategy with non-empty help text, in list order. -/
def routerHelp (l : List Strategy) : Str :=
  l.foldl
    (fun acc s =>
      if s.helpText == [] then acc
      else acc ++ "  • ".data ++ s.helpText ++ "\n".data)
    "Isaac Command Router - Available command types:\n".data

/-- `std::string::find(ch, pos)`: index of the first occurrence of `ch`
at or after index `start`, `none` for `npos`. -/
def findFrom (s : Str) (ch : Char) (start : Nat) : Option Nat :=
  match (s.drop start).findIdx? (fun x => x == ch) with
  | none => none
  | some i => some (start + i)

/-- `ConfigStrategy::execute` (config_strategy.cpp).  The first token
(`/config` itself) is consumed by `iss >> command`; the remaining tokens
are the arguments.  The C++ `if (sub == "set" && args.size() >= 3) ...`
cascade is transcribed with nested matches: a known sub-command with too
few arguments falls through every guarded branch into the final failure,
exactly as in the source. -/
def configExec (input : Str) : CommandResult × List Str :=
  let args := (tokens input).drop 1
  match args with
  | [] =>
    ({ success := true,
       output := ("Isaac > Configuration overview\nAvailable commands:\n  /config set <key> <value>\n  /config get <key>\n  /config list\n  /config status\n\nC++ ConfigStrategy implementation active").data,
       exit_code := 0 }, [])
  | sub :: rest =>
    if sub == "set".data then
      match rest with
      | k :: v :: _ =>
        ({ success := true,
           output := "Isaac > Config set (C++): ".data ++ k ++ " = ".data ++ v ++
             "\nNote: Full persistence requires Python config integration".data,
           exit_code := 0 }, [])
      | _ => configUnknown
    else if sub == "get".data then
      match rest with
      | k :: _ =>
        ({ success := true,
           output := "Isaac > Config get (C++): ".data ++ k ++
             " = <value not implemented>\nNote: Full config retrieval requires Python integration".data,
           exit_code := 0 }, [])
      | _ => configUnknown
    else if sub == "list".data then
      ({ success := true,
         output := ("Isaac > Available config keys (C++ implementation):\n  machine_id\n  api_keys\n  preferences\n  cloud_settings\n\nNote: Full listing requires Python config integration").data,
         exit_code := 0 }, [])
    else if sub == "status".data then
      ({ success := true,
         output := ("Isaac > Config status: C++ ConfigStrategy active\n  Implementation: Basic command parsing\n  Persistence: Not yet integrated\n  Features: set/get/list/status commands").data,
         exit_code := 0 }, [])
    else configUnknown
where
  /-- The final `else` branch of `ConfigStrategy::execute`. -/
  configUnknown : CommandResult × List Str :=
    ({ success := false,
       output := ("Isaac > Unknown config command. Try: /config set/get/list/status\n\nC++ ConfigStrategy: Basic implementation active").data,
       exit_code := 1 }, [])

/-- `DeviceRoutingStrategy::execute` (device_routing_strategy.cpp).  The
`std::cout` progress line is I/O outside the embedded state and is not
modelled; no shell call is made on any path. -/
def deviceExec (input : Str) : CommandResult × List Str :=
  match findFrom input ' ' 1 with
  | none =>
    ({ success := false,
       output := "Usage: !device_alias /command\n       !device_alias:strategy /command".data,
       exit_code := 1 }, [])
  | some sp =>
    let spec := (input.drop 1).take (sp - 1)
    let cmd := input.drop (sp + 1)
    let deviceAlias :=
      match findFrom spec ':' 0 with
      | none => spec
      | some cp => spec.take cp
    let stratName :=
      match findFrom spec ':' 0 with
      | none => "least_load".data
      | some cp => spec.drop (cp + 1)
    if deviceAlias == "local".data || deviceAlias == "localhost".data then
      ({ success := true,
         output := "Isaac > Executed locally: ".data ++ cmd ++
           "\nNote: Full local execution requires shell adapter integration".data,
         exit_code := 0 }, [])
    else if List.isPrefixOf "group".data deviceAlias then
      ({ success := true,
         output := "Isaac > Load balancing across group \x27".data ++ deviceAlias ++
           "\x27 with strategy \x27".data ++ stratName ++ "\x27: ".data ++ cmd ++
           "\nNote: Full group execution requires MachineRegistry integration".data,
         exit_code := 0 }, [])
    else
      ({ success := true,
         output := "Isaac > Command queued for ".data ++ deviceAlias ++
           " (strategy: ".data ++ stratName ++ "): ".data ++ cmd ++
           "\nNote: Full remote execution requires RemoteExecutor and cloud integration".data,
         exit_code := 0 }, [])

/-- `TaskModeStrategy::execute`: drops the 11-character prefix
"isaac task:"; an empty description is a usage failure, otherwise a
not-yet-implemented failure.  No shell call on any path. -/
def taskExec (input : Str) : CommandResult × List Str :=
  let desc := input.drop 11
  if desc == [] then
    ({ success := false,
       output := "Isaac > Task mode requires a description. Usage: isaac task: <description>".data,
       exit_code := 1 }, [])
  else
    ({ success := false,
       output := "Isaac > Task mode not yet fully implemented in C++: ".data ++ desc ++
         "\nNote: Full task execution requires AI task planner integration".data,
       exit_code := 1 }, [])

/-- `AgenticModeStrategy::execute`: everything after the first ':' is
the query.  When no ':' exists, `find` returns `npos` and
`substr(npos + 1)` wraps `size_t` to `substr(0)`, i.e. the whole input;
that branch is unreachable under `can_handle`.  No shell call. -/
def agenticExec (input : Str) : CommandResult × List Str :=
  let q :=
    match findFrom input ':' 0 with
    | some p => input.drop (p + 1)
    | none => input
  if q == [] then
    ({ success := false,
       output := ("Isaac > Agentic mode requires a query. Usage: isaac agent: <query> or isaac agentic: <query>").data,
       exit_code := 1 }, [])
  else
    ({ success := false,
       output := "Isaac > Agentic mode not yet fully implemented in C++: ".data ++ q ++
         "\nNote: Full agentic execution requires AgenticOrchestrator integration".data,
       exit_code := 1 }, [])

/-- `MetaCommandStrategy::execute`: strips the '/' and leading
whitespace, lower-cases, then dispatches help/status/unknown; "help"
renders the router's help over the loaded strategy list `ctx`. -/
def metaExec (ctx : List Strategy) (input : Str) : CommandResult × List Str :=
  let cmd := lowerStr (dropSpaces (input.drop 1))
  if cmd == "help".data then
    ({ success := true, output := routerHelp ctx, exit_code := 0 }, [])
  else if cmd == "status".data then
    ({ success := true, output := "Isaac > System status: C++ core active".data,
       exit_code := 0 }, [])
  else
    ({ success := false, output := "Isaac > Unknown meta command: ".data ++ cmd,
       exit_code := -1 }, [])

/-- `TierExecutionStrategy::execute` (strategies.cpp lines 69-91):
tier ≥ 4 blocks without executing; tier ≥ 3 executes with a warning line
prepended to the shell output; tier == 2.5 executes with a confirmation
line prepended; otherwise executes directly. -/
def tierExec (shell : ShellExec) (table : List (Str × List Str)) (input : Str) :
    CommandResult × List Str :=
  let tier := get_tier table input
  if 4 ≤ tier then
    ({ success := false, output := "Isaac > Command blocked (Tier 4 - lockdown)".data,
       exit_code := -1 }, [])
  else if 3 ≤ tier then
    let r := shell input
    ({ r with output := "Isaac > Warning: Tier 3 command executed\n".data ++ r.output },
     [input])
  else if tier = mkRat 5 2 then
    let r := shell input
    ({ r with
        output := "Isaac > Confirmation required for Tier 2.5 command\n".data ++ r.output },
     [input])
  else (shell input, [input])

/-- A strategy's `execute` member.  `ctx` is the router's loaded strategy
list (reachable through the `StrategyContext` back-reference, used only
by `/help`); `shell` and `table` are the shell executor and the
validator's rule table from the same context.  The second component is
the trace of arguments passed to `ShellAdapter::execute`. -/
def Strategy.exec (s : Strategy) (ctx : List Strategy) (shell : ShellExec)
    (table : List (Str × List Str)) (input : Str) : CommandResult × List Str :=
  match s with
  | .pipe => (shell input, [input])
  | .cd =>
    let dir :=
      match tokens input with
      | _ :: d :: _ => d
      | _ => "~".data
    let cmdline := "cd ".data ++ dir
    (shell cmdline, [cmdline])
  | .forceExecution =>
    let cmd := dropSpaces (input.drop 1)
    (shell cmd, [cmd])
  | .exitQuit =>
    ({ success := true, output := "Isaac > Goodbye!".data, exit_code := 0 }, [])
  | .config => configExec input
  | .deviceRouting => deviceExec input
  | .exitBlocker =>
    ({ success := false, output := "Exit blocker strategy not implemented".data,
       exit_code := -1 }, [])
  | .taskMode => taskExec input
  | .agenticMode => agenticExec input
  | .metaCommand => metaExec ctx input
  | .naturalLanguage =>
    let q := dropSpaces (input.drop 5)
    ({ success := true,
       output := "Isaac > AI query: ".data ++ q ++ " (C++ processing)".data,
       exit_code := 0 }, [])
  | .unixAlias =>
    ({ success := false, output := "Unix alias strategy not implemented".data,
       exit_code := -1 }, [])
  | .tierExecution => tierExec shell table input

/-- The first strategy in the list whose predicate accepts the input
(the scan loop of `CommandRouter::route_command`). -/
def firstMatch (input : Str) : List Strategy → Option Strategy
  | [] => none
  | s :: rest => if s.canHandle input then some s else firstMatch input rest

/-- The scan loop of `CommandRouter::route_command` over the remaining
strategies `rest`, with `ctx` the full loaded list (for the context);
falls through to the defensive "no strategy could handle" result. -/
def dispatchFrom (ctx : List Strategy) (shell : ShellExec)
    (table : List (Str × List Str)) (input : Str) : List Strategy → CommandResult × List Str
  | [] =>
    ({ success := false, output := "Isaac > No strategy could handle command".data,
       exit_code := -1 }, [])
  | s :: rest =>
    if s.canHandle input then s.exec ctx shell table input
    else dispatchFrom ctx shell table input rest

/-- `CommandRouter::route_command` over an already-loaded strategy list. -/
def route_command (l : List Strategy) (shell : ShellExec)
    (table : List (Str × List Str)) (input : Str) : CommandResult × List Str :=
  dispatchFrom l shell table input l

/-- The strategy list in the registration order of
`CommandRouter::load_strategies` (before the `std::sort` call). -/
def registrationList : List Strategy :=
  [.pipe, .cd, .forceExecution, .exitQuit, .config, .deviceRouting, .exitBlocker,
   .taskMode, .agenticMode, .metaCommand, .naturalLanguage, .unixAlias, .tierExecution]

/-- Postcondition of the `std::sort` call in
`CommandRouter::load_strategies`: the stored list is a permutation of
the registration list that is non-decreasing in priority.  `std::sort`
guarantees nothing more — in particular not stability — so the loaded
list is modelled relationally as any list satisfying this contract. -/
def SortContract (l : List Strategy) : Prop :=
  l.Perm registrationList ∧ l.Pairwise (fun a b => a.priority ≤ b.priority)

/-- The registration list stably sorted by ascending priority (insertion
sort is stable).  The registration order is already non-decreasing in
priority, so this equals `registrationList` itself. -/
def stableSorted : List Strategy :=
  List.insertionSort (fun a b => a.priority ≤ b.priority) registrationList

/-- `CommandRouter`'s mutable state: the `strategies_loaded_` flag and
the `strategies_` vector. -/
structure RouterState where
  strategies_loaded : Bool
  strategies : List Strategy
deriving DecidableEq

/-- A freshly constructed router: lazy loading means the strategy list
starts empty and unloaded. -/
def freshRouter : RouterState := { strategies_loaded := false, strategies := [] }

/-- `CommandRouter::ensure_strategies_loaded`: loads and sorts the
strategies on the first call only.  The stored list is the stable-sort
outcome; the `std::sort` tie between the two priority-40 strategies is
treated relationally through `SortContract` elsewhere. -/
def ensure_strategies_loaded (st : RouterState) : RouterState :=
  if st.strategies_loaded then st
  else { strategies_loaded := true, strategies := stableSorted }

/-- Stateful `CommandRouter::route_command`: ensure the strategies are
loaded, then dispatch over the loaded list. -/
def routeRS (st : RouterState) (shell : ShellExec) (table : List (Str × List Str))
    (input : Str) : (CommandResult × List Str) × RouterState :=
  let st' := ensure_strategies_loaded st
  (route_command st'.strategies shell table input, st')

/-- Stateful `CommandRouter::get_help`: a `const` member — it renders
the help of whatever `strategies_` currently holds and does NOT call
`ensure_strategies_loaded`, so it never changes the state. -/
def get_helpRS (st : RouterState) : Str × RouterState :=
  (routerHelp st.strategies, st)

/-! ## Routing lemmas -/

/-- If the scan finds `s` first, dispatch returns `s`'s execution. -/
theorem dispatchFrom_eq_of_firstMatch {ctx rest : List Strategy} {shell : ShellExec}
    {table : List (Str × List Str)} {input : Str} {s : Strategy}
    (h : firstMatch input rest = some s) :
    dispatchFrom ctx shell table input rest = s.exec ctx shell table input := by
  induction rest with
  | nil => simp [firstMatch] at h
  | cons a t ih =>
    by_cases ha : a.canHandle input = true
    · simp [firstMatch, ha] at h
      subst h
      simp [dispatchFrom, ha]
    · simp [firstMatch, ha] at h
      simp [dispatchFrom, ha]
      exact ih h

/-- Any list containing the catch-all default strategy has a first
match, whatever the input. -/
theorem firstMatch_total {l : List Strategy} {input : Str}
    (hmem : Strategy.tierExecution ∈ l) :
    ∃ s, s ∈ l ∧ firstMatch input l = some s := by
  induction l with
  | nil => cases hmem
  | cons a t ih =>
    by_cases ha : a.canHandle input = true
    · exact ⟨a, List.mem_cons_self a t, by simp [firstMatch, ha]⟩
    · have hat : Strategy.tierExecution ∈ t := by
        rcases List.mem_cons.mp hmem with h | h
        · exact absurd (h ▸ ha) (by simp [Strategy.canHandle])
        · exact h
      obtain ⟨s, hs, hfm⟩ := ih hat
      exact ⟨s, List.mem_cons_of_mem a hs, by simp [firstMatch, ha, hfm]⟩

/-- If `x` is the only strategy in the list accepting the input, the
scan selects `x`. -/
theorem firstMatch_eq_of_unique {l : List Strategy} {input : Str} {x : Strategy}
    (hx : x ∈ l) (hcx : x.canHandle input = true)
    (hothers : ∀ s ∈ l, s ≠ x → s.canHandle input = false) :
    firstMatch input l = some x := by
  induction l with
  | nil => cases hx
  | cons a t ih =>
    by_cases hax : a = x
    · subst hax
      simp [firstMatch, hcx]
    · have ha : a.canHandle input = false := hothers a (List.mem_cons_self a t) hax
      have hxt : x ∈ t := by
        rcases List.mem_cons.mp hx with h | h
        · exact absurd h.symm hax
        · exact h
      simp [firstMatch, ha]
      exact ih hxt fun s hs hne => hothers s (List.mem_cons_of_mem a hs) hne

/-- A list satisfying the sort contract starts with the Pipe strategy:
its priority 10 is the strict minimum of all registered priorities. -/
theorem sortContract_head {l : List Strategy} (hl : SortContract l) :
    ∃ t, l = Strategy.pipe :: t := by
  obtain ⟨hperm, hpw⟩ := hl
  cases l with
  | nil =>
    have := hperm.length_eq
    simp [registrationList] at this
  | cons a t =>
    by_cases ha : a = Strategy.pipe
    · exact ⟨t, by rw [ha]⟩
    · have hp : Strategy.pipe ∈ a :: t := hperm.mem_iff.mpr (by decide)
      have hpt : Strategy.pipe ∈ t := by
        rcases List.mem_cons.mp hp with h | h
        · exact absurd h.symm ha
        · exact h
      have hle : a.priority ≤ (Strategy.pipe).priority :=
        (List.pairwise_cons.mp hpw).1 _ hpt
      have h15 : ∀ s : Strategy, s = Strategy.pipe ∨ 15 ≤ s.priority := by decide
      rcases h15 a with h | h
      · exact absurd h ha
      · have : (10 : Int) < 10 := by
          calc (10 : Int) < 15 := by decide
          _ ≤ a.priority := h
          _ ≤ (Strategy.pipe).priority := hle
          _ = 10 := by decide
        exact absurd this (by decide)

/-! ## Character and token lemmas -/

/-- Characterisation of the C-locale whitespace test. -/
theorem isCppSpace_iff {c : Char} :
    isCppSpace c = true ↔
      c = ' ' ∨ c = '\t' ∨ c = '\n' ∨ c = '\x0b' ∨ c = '\x0c' ∨ c = '\r' := by
  simp only [isCppSpace, Bool.or_eq_true, beq_iff_eq]
  tauto

/-- Case-folding cannot turn a non-whitespace character into whitespace:
if `lowerChar c` is not whitespace then neither is `c`. -/
theorem lowerChar_nonspace {c t : Char} (h : lowerChar c = t)
    (ht : isCppSpace t = false) : isCppSpace c = false := by
  unfold lowerChar at h
  by_cases hr : 'A' ≤ c ∧ c ≤ 'Z'
  · cases hcc : isCppSpace c with
    | false => rfl
    | true =>
      rcases isCppSpace_iff.mp hcc with h' | h' | h' | h' | h' | h' <;>
        (subst h'; exact absurd hr.1 (by decide))
  · rw [if_neg hr] at h
    exact h ▸ ht

/-- `dropSpaces` keeps a string whose head is not whitespace. -/
theorem dropSpaces_cons_of_nonspace {c : Char} {cs : Str} (h : isCppSpace c = false) :
    dropSpaces (c :: cs) = c :: cs := by
  simp [dropSpaces, h]

/-- `takeTok` keeps a non-whitespace head. -/
theorem takeTok_cons_of_nonspace {c : Char} {cs : Str} (h : isCppSpace c = false) :
    takeTok (c :: cs) = c :: takeTok cs := by
  simp [takeTok, h]

/-- The first token of a string with non-whitespace head starts with
that head. -/
theorem firstTok_cons_of_nonspace {c : Char} {cs : Str} (h : isCppSpace c = false) :
    firstTok (c :: cs) = c :: takeTok cs := by
  simp [firstTok, dropSpaces_cons_of_nonspace h, takeTok_cons_of_nonspace h]

/-- Head of the case-folded base command, for a non-whitespace input head. -/
theorem base_head_of_cons {c : Char} {cs : Str} (h : isCppSpace c = false) :
    (lowerStr (firstTok (c :: cs))).head? = some (lowerChar c) := by
  rw [firstTok_cons_of_nonspace h]
  rfl

/-- Structural inversion of `List.isPrefixOf`. -/
theorem isPrefixOf_cons_inv {p : Char} {ps s : Str}
    (h : List.isPrefixOf (p :: ps) s = true) :
    ∃ t, s = p :: t ∧ List.isPrefixOf ps t = true := by
  cases s with
  | nil => simp [List.isPrefixOf] at h
  | cons b bs =>
    simp only [List.isPrefixOf, Bool.and_eq_true, beq_iff_eq] at h
    exact ⟨bs, by rw [h.1], h.2⟩

/-- The case-folded alias list of the "4" entry of the built-in table.
"Remove-Item" is listed there as well, but is shadowed by the "3" entry
during the scan; the list here is only an over-approximation of the
base commands that can classify as tier 4, which suffices. -/
def tier4Lowered : List Str :=
  ["rm", "del", "format", "dd", "remove-item", "format-volume", "clear-disk"].map
    String.data

/-- If the scan over the built-in table yields 4, the base command is
one of the case-folded tier-"4" aliases. -/
theorem findTier_four_mem {base : Str}
    (h : findTier base tier_defaults = some 4) : base ∈ tier4Lowered := by
  simp only [tier_defaults, findTier] at h
  split_ifs at h with h1 h2 h3 h4 h5
  · exact absurd h (by decide)
  · exact absurd h (by decide)
  · exact absurd h (by decide)
  · exact absurd h (by decide)
  · obtain ⟨c, hc, hbeq⟩ := List.any_eq_true.mp h5
    have hbase : base = lowerStr c := (eq_of_beq hbeq).symm
    simp only [List.map, List.mem_cons, List.not_mem_nil, or_false] at hc
    rcases hc with rfl | rfl | rfl | rfl | rfl | rfl | rfl <;>
      (rw [hbase]; decide)

/-- When an input classifies as tier 4 under the built-in table and
contains no pipe character, no strategy other than the default accepts
it: every other predicate forces a base command (first token) that is
not a tier-4 alias. -/
theorem tier4_only_default {input : Str} {s : Strategy}
    (h4 : get_tier tier_defaults input = 4)
    (hp : input.contains '|' = false)
    (hs : s ≠ .tierExecution) :
    s.canHandle input = false := by
  have hbase : lowerStr (firstTok input) ∈ tier4Lowered := by
    unfold get_tier at h4
    by_cases hall : input.all isCppSpace = true
    · rw [if_pos hall] at h4
      exact absurd h4 (by decide)
    · rw [if_neg hall] at h4
      cases hft : findTier (lowerStr (firstTok input)) tier_defaults with
      | none => simp only [hft] at h4; exact absurd h4 (by decide)
      | some t =>
        simp only [hft] at h4
        exact findTier_four_mem (hft.trans (by rw [h4]))
  have hbh : (lowerStr (firstTok input)).head? = some 'r' ∨
      (lowerStr (firstTok input)).head? = some 'd' ∨
      (lowerStr (firstTok input)).head? = some 'f' ∨
      (lowerStr (firstTok input)).head? = some 'c' := by
    simp only [tier4Lowered, List.map, List.mem_cons, List.not_mem_nil, or_false] at hbase
    rcases hbase with h | h | h | h | h | h | h <;> rw [h] <;> decide
  have headNE : ∀ x : Char, x ≠ 'r' → x ≠ 'd' → x ≠ 'f' → x ≠ 'c' →
      (lowerStr (firstTok input)).head? ≠ some x := by
    intro x hr hd hf hc hx
    rcases hbh with h | h | h | h <;> rw [hx] at h <;> injection h with h <;>
      first
      | exact hr h
      | exact hd h
      | exact hf h
      | exact hc h
  have viaLower : ∀ (x : Char) (rest : Str), lowerStr input = x :: rest →
      isCppSpace x = false → (lowerStr (firstTok input)).head? = some x := by
    intro x rest h hx
    cases input with
    | nil => simp [lowerStr] at h
    | cons c t =>
      have h1 : lowerChar c = x := by
        simp only [lowerStr, List.map, List.cons.injEq] at h
        exact h.1
      have hns : isCppSpace c = false := lowerChar_nonspace h1 hx
      rw [base_head_of_cons hns, h1]
  cases s with
  | pipe => exact hp
  | cd =>
    by_contra hcd
    rw [Bool.not_eq_false] at hcd
    simp only [Strategy.canHandle, Bool.or_eq_true] at hcd
    rcases hcd with hpre | heq
    · obtain ⟨t1, rfl, h1⟩ := isPrefixOf_cons_inv hpre
      obtain ⟨t2, h2e, h2⟩ := isPrefixOf_cons_inv h1
      obtain ⟨t3, h3e, _⟩ := isPrefixOf_cons_inv h2
      subst h2e; subst h3e
      rw [show lowerStr (firstTok ('c' :: 'd' :: ' ' :: t3)) = "cd".data from rfl] at hbase
      exact absurd hbase (by decide)
    · rw [eq_of_beq heq] at hbase
      exact absurd hbase (by decide)
  | forceExecution =>
    by_contra hf
    rw [Bool.not_eq_false] at hf
    cases input with
    | nil => exact absurd hf (by decide)
    | cons c t =>
      have hc : c = '!' := eq_of_beq hf
      subst hc
      exact headNE '!' (by decide) (by decide) (by decide) (by decide)
        (base_head_of_cons (by decide))
  | exitQuit =>
    by_contra he
    rw [Bool.not_eq_false] at he
    simp only [Strategy.canHandle, Bool.or_eq_true] at he
    rcases he with ((((h | h) | h) | h) | h) | h
    · exact headNE 'e' (by decide) (by decide) (by decide) (by decide)
        (viaLower 'e' "xit".data (eq_of_beq h) (by decide))
    · exact headNE 'q' (by decide) (by decide) (by decide) (by decide)
        (viaLower 'q' "uit".data (eq_of_beq h) (by decide))
    · exact headNE 'q' (by decide) (by decide) (by decide) (by decide)
        (viaLower 'q' [] (eq_of_beq h) (by decide))
    · exact headNE '/' (by decide) (by decide) (by decide) (by decide)
        (viaLower '/' "exit".data (eq_of_beq h) (by decide))
    · exact headNE '/' (by decide) (by decide) (by decide) (by decide)
        (viaLower '/' "quit".data (eq_of_beq h) (by decide))
    · exact headNE '/' (by decide) (by decide) (by decide) (by decide)
        (viaLower '/' "q".data (eq_of_beq h) (by decide))
  | config =>
    by_contra hc
    rw [Bool.not_eq_false] at hc
    obtain ⟨t1, rfl, _⟩ := isPrefixOf_cons_inv hc
    exact headNE '/' (by decide) (by decide) (by decide) (by decide)
      (base_head_of_cons (by decide))
  | deviceRouting =>
    by_contra hf
    rw [Bool.not_eq_false] at hf
    cases input with
    | nil => exact absurd hf (by decide)
    | cons c t =>
      have hc : c = '!' := eq_of_beq hf
      subst hc
      exact headNE '!' (by decide) (by decide) (by decide) (by decide)
        (base_head_of_cons (by decide))
  | exitBlocker => rfl
  | taskMode =>
    by_contra ht
    rw [Bool.not_eq_false] at ht
    obtain ⟨t1, rfl, _⟩ := isPrefixOf_cons_inv ht
    exact headNE 'i' (by decide) (by decide) (by decide) (by decide)
      (base_head_of_cons (by decide))
  | agenticMode =>
    by_contra ha
    rw [Bool.not_eq_false] at ha
    simp only [Strategy.canHandle, Bool.or_eq_true] at ha
    rcases ha with h | h <;>
    · obtain ⟨t1, rfl, _⟩ := isPrefixOf_cons_inv h
      exact headNE 'i' (by decide) (by decide) (by decide) (by decide)
        (base_head_of_cons (by decide))
  | metaCommand =>
    by_contra hm
    rw [Bool.not_eq_false] at hm
    cases input with
    | nil => exact absurd hm (by decide)
    | cons c t =>
      have hc : c = '/' := eq_of_beq hm
      subst hc
      exact headNE '/' (by decide) (by decide) (by decide) (by decide)
        (base_head_of_cons (by decide))
  | naturalLanguage =>
    by_contra hn
    rw [Bool.not_eq_false] at hn
    obtain ⟨t1, h1, _⟩ := isPrefixOf_cons_inv hn
    exact headNE 'i' (by decide) (by decide) (by decide) (by decide)
      (viaLower 'i' t1 h1 (by decide))
  | unixAlias => rfl
  | tierExecution => exact absurd rfl hs

/-! ## Claim theorems -/

/-- Claim C1: for every input, `route_command` returns exactly one
result produced by some strategy of the loaded list; the default
TierExecution strategy accepts everything and has the largest
priority (100), so the defensive "no strategy could handle" fall-through
after the scan loop is unreachable. -/
theorem C1_router_totality (l : List Strategy) (shell : ShellExec)
    (table : List (Str × List Str)) (input : Str) (hl : SortContract l) :
    Strategy.canHandle .tierExecution input = true ∧
    (∀ s : Strategy, s.priority ≤ (Strategy.tierExecution).priority) ∧
    ∃ s, s ∈ l ∧ firstMatch input l = some s ∧
      route_command l shell table input = s.exec l shell table input := by
  refine ⟨rfl, by decide, ?_⟩
  have hmem : Strategy.tierExecution ∈ l := hl.1.mem_iff.mpr (by decide)
  obtain ⟨s, hs, hfm⟩ := firstMatch_total hmem
  exact ⟨s, hs, hfm, dispatchFrom_eq_of_firstMatch hfm⟩

/-- Witness for C1 at the concrete input "ls" over the registration
list (an admissible `std::sort` outcome). -/
theorem C1_router_totality_w :
    Strategy.canHandle .tierExecution "ls".data = true ∧
    (∀ s : Strategy, s.priority ≤ (Strategy.tierExecution).priority) ∧
    ∃ s, s ∈ registrationList ∧ firstMatch "ls".data registrationList = some s ∧
      route_command registrationList (fun _ => ⟨true, [], 0⟩) tier_defaults "ls".data =
        s.exec registrationList (fun _ => ⟨true, [], 0⟩) tier_defaults "ls".data :=
  C1_router_totality registrationList (fun _ => ⟨true, [], 0⟩) tier_defaults "ls".data
    ⟨List.Perm.refl _, by decide⟩

/-- Claim C3: for every input containing a pipe character, the Pipe
strategy — priority 10, the minimum of all registered priorities — is
selected ahead of every other matching strategy, and it delegates the
raw input verbatim to the shell executor. -/
theorem C3_pipe_selected (l : List Strategy) (shell : ShellExec)
    (table : List (Str × List Str)) (input : Str) (hl : SortContract l)
    (hp : input.contains '|' = true) :
    (Strategy.pipe).priority = 10 ∧
    (∀ s : Strategy, 10 ≤ s.priority) ∧
    firstMatch input l = some .pipe ∧
    route_command l shell table input = (shell input, [input]) := by
  obtain ⟨t, rfl⟩ := sortContract_head hl
  refine ⟨rfl, by decide, ?_, ?_⟩
  · simp only [firstMatch, Strategy.canHandle, hp, if_true]
  · simp only [route_command, dispatchFrom, Strategy.canHandle, hp, if_true, Strategy.exec]

/-- Witness for C3 at the concrete input "ls | wc -l". -/
theorem C3_pipe_selected_w :
    (Strategy.pipe).priority = 10 ∧
    (∀ s : Strategy, 10 ≤ s.priority) ∧
    firstMatch "ls | wc -l".data registrationList = some .pipe ∧
    route_command registrationList (fun _ => ⟨true, [], 0⟩) tier_defaults "ls | wc -l".data =
      ((fun _ => (⟨true, [], 0⟩ : CommandResult)) "ls | wc -l".data, ["ls | wc -l".data]) :=
  C3_pipe_selected registrationList (fun _ => ⟨true, [], 0⟩) tier_defaults "ls | wc -l".data
    ⟨List.Perm.refl _, by decide⟩ (by decide)

/-- Claim C4: `get_tier` returns 3.0 on empty or whitespace-only input,
and 3.0 when the case-folded first token matches no alias of the rule
table; both defaults land on the validation-required side
(`requires_validation`, never `is_safe`). -/
theorem C4_unmatched_default (table : List (Str × List Str)) (input : Str)
    (h : input.all isCppSpace = true ∨ findTier (lowerStr (firstTok input)) table = none) :
    get_tier table input = 3 ∧ requires_validation table input = true ∧
    is_safe table input = false := by
  have h3 : get_tier table input = 3 := by
    unfold get_tier
    rcases h with h | h
    · simp [h]
    · by_cases hall : input.all isCppSpace = true
      · simp [hall]
      · simp [hall, h]
  refine ⟨h3, ?_, ?_⟩
  · simp only [requires_validation, h3]
    decide
  · simp only [is_safe, h3]
    decide

/-- Witness for C4 at the whitespace-only input "   " (and, through the
second disjunct, at the unmatched command "frobnicate"). -/
theorem C4_unmatched_default_w :
    (get_tier tier_defaults "   ".data = 3 ∧ requires_validation tier_defaults "   ".data = true ∧
      is_safe tier_defaults "   ".data = false) ∧
    (get_tier tier_defaults "frobnicate".data = 3 ∧
      requires_validation tier_defaults "frobnicate".data = true ∧
      is_safe tier_defaults "frobnicate".data = false) :=
  ⟨C4_unmatched_default tier_defaults "   ".data (Or.inl (by decide)),
   C4_unmatched_default tier_defaults "frobnicate".data (Or.inr (by decide))⟩

/-- Claim C5: under fallback to the built-in table (the external rule
resource missing or unparsable, so `load_hardcoded_defaults` supplies
the whole table), the representative classifications hold; 2.5 is the
rational `mkRat 5 2`. -/
theorem C5_fallback_values :
    get_tier tier_defaults "ls".data = 1 ∧
    get_tier tier_defaults "grep x".data = 2 ∧
    get_tier tier_defaults "find .".data = mkRat 5 2 ∧
    get_tier tier_defaults "rm -rf /".data = 4 := by
  decide

/-- Counterexample to claim C2 as stated: the input "rm -rf / | cat"
classifies as tier 4 (its first token "rm" is a tier-4 alias), yet
because it contains a pipe character the Pipe strategy (priority 10)
intercepts it before the default strategy: with a succeeding shell,
`route_command` returns `success = true` and the shell executor is
invoked once, with the raw input. -/
theorem C2_tier4_cex :
    get_tier tier_defaults "rm -rf / | cat".data = 4 ∧
    ((routeRS freshRouter (fun _ => ⟨true, "ok".data, 0⟩) tier_defaults
        "rm -rf / | cat".data).1.1.success = true) ∧
    ((routeRS freshRouter (fun _ => ⟨true, "ok".data, 0⟩) tier_defaults
        "rm -rf / | cat".data).1.2 = ["rm -rf / | cat".data]) := by
  decide

/-- Claim C2, amended: for every input that classifies as tier 4 under
the built-in table AND contains no pipe character (so the Pipe strategy,
the only higher-priority strategy able to accept a tier-4-classified
input, does not intercept it), `route_command` returns `success = false`
and the shell executor is invoked zero times. -/
theorem C2_tier4_blocked (l : List Strategy) (shell : ShellExec) (input : Str)
    (hl : SortContract l)
    (h4 : get_tier tier_defaults input = 4)
    (hp : input.contains '|' = false) :
    (route_command l shell tier_defaults input).1.success = false ∧
    (route_command l shell tier_defaults input).2 = [] := by
  have hmem : Strategy.tierExecution ∈ l := hl.1.mem_iff.mpr (by decide)
  have hfm : firstMatch input l = some .tierExecution :=
    firstMatch_eq_of_unique hmem rfl
      (fun _ _ hne => tier4_only_default h4 hp hne)
  have hroute : dispatchFrom l shell tier_defaults input l =
      Strategy.exec .tierExecution l shell tier_defaults input :=
    dispatchFrom_eq_of_firstMatch hfm
  have hexec : Strategy.exec .tierExecution l shell tier_defaults input =
      ({ success := false, output := "Isaac > Command blocked (Tier 4 - lockdown)".data,
         exit_code := -1 }, []) := by
    simp only [Strategy.exec, tierExec, h4]
    rw [if_pos (le_refl (4 : Rat))]
  rw [route_command, hroute, hexec]
  exact ⟨rfl, rfl⟩

/-- Witness for the amended C2 at the concrete input "rm -rf /". -/
theorem C2_tier4_blocked_w :
    (route_command registrationList (fun _ => ⟨true, "ok".data, 0⟩) tier_defaults
        "rm -rf /".data).1.success = false ∧
    (route_command registrationList (fun _ => ⟨true, "ok".data, 0⟩) tier_defaults
        "rm -rf /".data).2 = [] :=
  C2_tier4_blocked registrationList (fun _ => ⟨true, "ok".data, 0⟩) "rm -rf /".data
    ⟨List.Perm.refl _, by decide⟩ (by decide) (by decide)

/-- Counterexample to claim C6 as stated: the annotation is prepended,
not appended, to the shell output.  At the tier-2.5 input "find ." with
a shell producing output "OUT", the result's output begins with the
confirmation line and does not begin with (hence does not keep in front)
the shell's own output. -/
theorem C6_annotation_cex :
    (tierExec (fun _ => ⟨true, "OUT".data, 0⟩) tier_defaults "find .".data).1.output =
      "Isaac > Confirmation required for Tier 2.5 command\n".data ++ "OUT".data ∧
    List.isPrefixOf "OUT".data
      ((tierExec (fun _ => ⟨true, "OUT".data, 0⟩) tier_defaults "find .".data).1.output) =
      false := by
  decide

/-- Claim C6, amended: for tier 2.5 and for 3 ≤ tier < 4 the default
strategy executes via the shell and returns the shell's result with the
confirmation/warning annotation PREPENDED to the output text; for
tier < 2.5 the shell result is returned unmodified.  In all three cases
exactly one shell invocation occurs, with the raw input. -/
theorem C6_tier_annotations (shell : ShellExec) (table : List (Str × List Str))
    (input : Str) :
    (3 ≤ get_tier table input → get_tier table input < 4 →
      tierExec shell table input =
        ({ shell input with
            output := "Isaac > Warning: Tier 3 command executed\n".data ++
              (shell input).output }, [input])) ∧
    (get_tier table input = mkRat 5 2 →
      tierExec shell table input =
        ({ shell input with
            output := "Isaac > Confirmation required for Tier 2.5 command\n".data ++
              (shell input).output }, [input])) ∧
    (get_tier table input < mkRat 5 2 →
      tierExec shell table input = (shell input, [input])) := by
  refine ⟨?_, ?_, ?_⟩
  · intro h3 h4
    simp only [tierExec]
    rw [if_neg (by exact not_le.mpr h4), if_pos h3]
  · intro h25
    have h4 : ¬ (4 : Rat) ≤ get_tier table input := by
      rw [h25]; decide
    have h3 : ¬ (3 : Rat) ≤ get_tier table input := by
      rw [h25]; decide
    simp only [tierExec]
    rw [if_neg h4, if_neg h3, if_pos h25]
  · intro hlt
    have h4 : ¬ (4 : Rat) ≤ get_tier table input := by
      intro hc
      exact absurd (lt_of_le_of_lt hc hlt) (by decide)
    have h3 : ¬ (3 : Rat) ≤ get_tier table input := by
      intro hc
      exact absurd (lt_of_le_of_lt hc hlt) (by decide)
    have h25 : ¬ get_tier table input = mkRat 5 2 := fun hc => absurd (hc ▸ hlt) (by decide)
    simp only [tierExec]
    rw [if_neg h4, if_neg h3, if_neg h25]

/-- Witness for the amended C6: the tier-3 branch at "git status", the
tier-2.5 branch at "find .", and the direct branch at "ls", all with a
concrete shell. -/
theorem C6_tier_annotations_w :
    tierExec (fun _ => ⟨true, "OUT".data, 0⟩) tier_defaults "git status".data =
      ({ success := true,
         output := "Isaac > Warning: Tier 3 command executed\n".data ++ "OUT".data,
         exit_code := 0 }, ["git status".data]) ∧
    tierExec (fun _ => ⟨true, "OUT".data, 0⟩) tier_defaults "find .".data =
      ({ success := true,
         output := "Isaac > Confirmation required for Tier 2.5 command\n".data ++ "OUT".data,
         exit_code := 0 }, ["find .".data]) ∧
    tierExec (fun _ => ⟨true, "OUT".data, 0⟩) tier_defaults "ls".data =
      ((fun _ => (⟨true, "OUT".data, 0⟩ : CommandResult)) "ls".data, ["ls".data]) :=
  ⟨(C6_tier_annotations (fun _ => ⟨true, "OUT".data, 0⟩) tier_defaults
      "git status".data).1 (by decide) (by decide),
   (C6_tier_annotations (fun _ => ⟨true, "OUT".data, 0⟩) tier_defaults
      "find .".data).2.1 (by decide),
   (C6_tier_annotations (fun _ => ⟨true, "OUT".data, 0⟩) tier_defaults
      "ls".data).2.2 (by decide)⟩

/-- The only other priority-sorted permutation of the registration list:
the two priority-40 strategies (DeviceRouting, ExitBlocker) swapped. -/
def swappedList : List Strategy :=
  [.pipe, .cd, .forceExecution, .exitQuit, .config, .exitBlocker, .deviceRouting,
   .taskMode, .agenticMode, .metaCommand, .naturalLanguage, .unixAlias, .tierExecution]

/-- Counterexample to claim C7 as stated: `load_strategies` sorts with
`std::sort`, whose postcondition (a priority-sorted permutation,
`SortContract`) does NOT force stability.  `swappedList` — ExitBlocker
before the earlier-registered DeviceRouting, both priority 40 — is an
admissible outcome that differs from the stably sorted registration
list, so "the strategy list equals the registration-order list stably
sorted" is not implied by the code. -/
theorem C7_stable_cex :
    SortContract swappedList ∧ swappedList ≠ stableSorted := by
  exact ⟨⟨by decide, by decide⟩, by decide⟩

/-- Claim C7, amended: the loaded list is a permutation of the
registration list that is non-decreasing in priority; since all
priorities except the 40-pair are distinct, the only admissible
outcomes are the stable order (which equals the registration order,
already ascending) and the same list with the two priority-40
strategies swapped.  The tie is unobservable in dispatch because
ExitBlocker's predicate never accepts. -/
theorem C7_sort_outcomes (l : List Strategy) (hl : SortContract l) :
    (l = registrationList ∨ l = swappedList) ∧
    stableSorted = registrationList ∧
    SortContract registrationList ∧ SortContract swappedList ∧
    (∀ input, firstMatch input swappedList = firstMatch input registrationList) := by
  obtain ⟨hperm, hpw⟩ := hl
  refine ⟨?_, by decide, ⟨List.Perm.refl _, by decide⟩, ⟨by decide, by decide⟩, ?_⟩
  · haveI : IsAntisymm Int (fun a b : Int => a ≤ b) := ⟨fun _ _ h1 h2 => le_antisymm h1 h2⟩
    have hsort1 : (l.map Strategy.priority).Sorted (fun a b : Int => a ≤ b) :=
      List.pairwise_map.mpr hpw
    have hsort2 : (registrationList.map Strategy.priority).Sorted (fun a b : Int => a ≤ b) := by
      decide
    have hmap : l.map Strategy.priority = registrationList.map Strategy.priority :=
      List.eq_of_perm_of_sorted (hperm.map _) hsort1 hsort2
    rcases l with _ | ⟨a0, _ | ⟨a1, _ | ⟨a2, _ | ⟨a3, _ | ⟨a4, _ | ⟨a5, _ | ⟨a6, _ | ⟨a7,
      _ | ⟨a8, _ | ⟨a9, _ | ⟨a10, _ | ⟨a11, _ | ⟨a12, rest⟩⟩⟩⟩⟩⟩⟩⟩⟩⟩⟩⟩⟩ <;>
      simp only [registrationList, List.map, List.cons.injEq, List.map_eq_nil_iff,
        reduceCtorEq, and_false] at hmap
    obtain ⟨h0, h1, h2, h3, h4, h5, h6, h7, h8, h9, h10, h11, h12, hrest⟩ := hmap
    subst hrest
    have u : ∀ s : Strategy, (s.priority = 10 → s = .pipe) ∧
        (s.priority = 15 → s = .cd) ∧ (s.priority = 20 → s = .forceExecution) ∧
        (s.priority = 25 → s = .exitQuit) ∧ (s.priority = 35 → s = .config) ∧
        (s.priority = 45 → s = .taskMode) ∧ (s.priority = 48 → s = .agenticMode) ∧
        (s.priority = 50 → s = .metaCommand) ∧ (s.priority = 55 → s = .naturalLanguage) ∧
        (s.priority = 60 → s = .unixAlias) ∧ (s.priority = 100 → s = .tierExecution) ∧
        (s.priority = 40 → s = .deviceRouting ∨ s = .exitBlocker) := by decide
    obtain rfl := (u a0).1 h0
    obtain rfl := (u a1).2.1 h1
    obtain rfl := (u a2).2.2.1 h2
    obtain rfl := (u a3).2.2.2.1 h3
    obtain rfl := (u a4).2.2.2.2.1 h4
    obtain rfl := (u a7).2.2.2.2.2.1 h7
    obtain rfl := (u a8).2.2.2.2.2.2.1 h8
    obtain rfl := (u a9).2.2.2.2.2.2.2.1 h9
    obtain rfl := (u a10).2.2.2.2.2.2.2.2.1 h10
    obtain rfl := (u a11).2.2.2.2.2.2.2.2.2.1 h11
    obtain rfl := (u a12).2.2.2.2.2.2.2.2.2.2.1 h12
    rcases (u a5).2.2.2.2.2.2.2.2.2.2.2 h5 with rfl | rfl <;>
      rcases (u a6).2.2.2.2.2.2.2.2.2.2.2 h6 with rfl | rfl
    · exact absurd (hperm.count_eq .deviceRouting) (by decide)
    · exact Or.inl rfl
    · exact Or.inr rfl
    · exact absurd (hperm.count_eq .exitBlocker) (by decide)
  · intro input
    have hb : ∀ i : Str, Strategy.canHandle .exitBlocker i = false := fun _ => rfl
    simp [swappedList, registrationList, firstMatch, hb]

/-- Witness for the amended C7 at the concrete list `registrationList`
(the stable outcome). -/
theorem C7_sort_outcomes_w :
    (registrationList = registrationList ∨ registrationList = swappedList) ∧
    stableSorted = registrationList ∧
    SortContract registrationList ∧ SortContract swappedList ∧
    (∀ input, firstMatch input swappedList = firstMatch input registrationList) :=
  C7_sort_outcomes registrationList ⟨List.Perm.refl _, by decide⟩

/-- Counterexample to claim C8 as stated: `CommandRouter::get_help` is a
`const` member that never calls `ensure_strategies_loaded`, so the first
help-listing call on a fresh router does NOT fire the Unloaded→Loaded
transition — the state stays unloaded and the help output lists no
strategies (header only). -/
theorem C8_get_help_cex :
    (get_helpRS freshRouter).2.strategies_loaded = false ∧
    (get_helpRS freshRouter).1 = "Isaac Command Router - Available command types:\n".data := by
  exact ⟨rfl, rfl⟩

/-- Claim C8, amended: the Unloaded→Loaded transition fires exactly
once, on the first `route_command` call, and is irreversible: after any
`route_command` the state is loaded; a `route_command` on an
already-loaded state leaves the state untouched (no reload, no re-sort);
the first `route_command` on a fresh router installs the sorted list;
and `get_help` never changes the state (in particular never loads). -/
theorem C8_lazy_once (st : RouterState) (shell : ShellExec)
    (table : List (Str × List Str)) (input : Str) :
    ((routeRS st shell table input).2.strategies_loaded = true) ∧
    (st.strategies_loaded = true → (routeRS st shell table input).2 = st) ∧
    ((routeRS freshRouter shell table input).2 =
      { strategies_loaded := true, strategies := stableSorted }) ∧
    ((get_helpRS st).2 = st) := by
  refine ⟨?_, ?_, ?_, rfl⟩
  · simp only [routeRS, ensure_strategies_loaded]
    by_cases h : st.strategies_loaded = true
    · simp [h]
    · simp [h]
  · intro h
    simp [routeRS, ensure_strategies_loaded, h]
  · simp [routeRS, ensure_strategies_loaded, freshRouter]

/-- Witness for the amended C8: routing on an already-loaded state is a
no-op on the state. -/
theorem C8_lazy_once_w :
    (routeRS { strategies_loaded := true, strategies := stableSorted }
        (fun _ => ⟨true, [], 0⟩) tier_defaults "ls".data).2 =
      { strategies_loaded := true, strategies := stableSorted } :=
  (C8_lazy_once { strategies_loaded := true, strategies := stableSorted }
    (fun _ => ⟨true, [], 0⟩) tier_defaults "ls".data).2.1 rfl

/-- Claim C9: the Config strategy's behaviour, phrased over the token
list of the input (first token consumed, remainder are the arguments):
"set" with at least two following arguments succeeds with an output
referencing the key and value; "set" with fewer arguments and any
unknown sub-command fail with exit code 1 and non-empty explanatory
text.  The last conjunct records that `ConfigStrategy::execute` never
invokes the shell, and the embedding is a total function — nothing is
thrown past the router. -/
theorem C9_config_behaviour (input : Str) (k v : Str) (r : List Str) :
    ((tokens input).drop 1 = "set".data :: k :: v :: r →
      configExec input =
        ({ success := true,
           output := "Isaac > Config set (C++): ".data ++ k ++ " = ".data ++ v ++
             "\nNote: Full persistence requires Python config integration".data,
           exit_code := 0 }, [])) ∧
    ((tokens input).drop 1 = ["set".data, k] →
      (configExec input).1.success = false ∧ (configExec input).1.exit_code = 1 ∧
      (configExec input).1.output ≠ []) ∧
    ((tokens input).drop 1 = ["set".data] →
      (configExec input).1.success = false ∧ (configExec input).1.exit_code = 1 ∧
      (configExec input).1.output ≠ []) ∧
    (∀ sub r2, (tokens input).drop 1 = sub :: r2 →
      sub ≠ "set".data → sub ≠ "get".data → sub ≠ "list".data → sub ≠ "status".data →
      (configExec input).1.success = false ∧ (configExec input).1.exit_code = 1 ∧
      (configExec input).1.output ≠ []) ∧
    (configExec input).2 = [] := by
  refine ⟨?_, ?_, ?_, ?_, ?_⟩
  · intro h
    simp only [configExec, h, beq_self_eq_true, if_true]
  · intro h
    simp only [configExec, h, beq_self_eq_true, if_true]
    exact ⟨rfl, rfl, by decide⟩
  · intro h
    simp only [configExec, h, beq_self_eq_true, if_true]
    exact ⟨rfl, rfl, by decide⟩
  · intro sub r2 h hne1 hne2 hne3 hne4
    have b1 : (sub == "set".data) = false := beq_eq_false_iff_ne.mpr hne1
    have b2 : (sub == "get".data) = false := beq_eq_false_iff_ne.mpr hne2
    have b3 : (sub == "list".data) = false := beq_eq_false_iff_ne.mpr hne3
    have b4 : (sub == "status".data) = false := beq_eq_false_iff_ne.mpr hne4
    simp only [configExec, h, b1, b2, b3, b4, Bool.false_eq_true, if_false]
    exact ⟨rfl, rfl, by decide⟩
  · rcases hargs : (tokens input).drop 1 with _ | ⟨sub, rest⟩
    · simp only [configExec, hargs]
    · simp only [configExec, hargs]
      split_ifs <;> (try rfl) <;> rcases rest with _ | ⟨k1, _ | ⟨v1, r1⟩⟩ <;> rfl

/-- Witness for C9: "/config set foo bar" succeeds referencing foo and
bar; "/config set foo" fails with exit code 1. -/
theorem C9_config_behaviour_w :
    configExec "/config set foo bar".data =
      ({ success := true,
         output := "Isaac > Config set (C++): ".data ++ "foo".data ++ " = ".data ++
           "bar".data ++ "\nNote: Full persistence requires Python config integration".data,
         exit_code := 0 }, []) ∧
    (configExec "/config set foo".data).1.success = false ∧
    (configExec "/config set foo".data).1.exit_code = 1 :=
  ⟨(C9_config_behaviour "/config set foo bar".data "foo".data "bar".data []).1 (by decide),
   ((C9_config_behaviour "/config set foo".data "foo".data [] []).2.1 (by decide)).1,
   ((C9_config_behaviour "/config set foo".data "foo".data [] []).2.1 (by decide)).2.1⟩

/-- A token made only of non-whitespace characters is kept whole by
`takeTok`. -/
theorem takeTok_all_nonspace {s : Str} (h : ∀ c ∈ s, isCppSpace c = false) :
    takeTok s = s := by
  induction s with
  | nil => rfl
  | cons c t ih =>
    rw [takeTok_cons_of_nonspace (h c (List.mem_cons_self c t))]
    rw [ih fun x hx => h x (List.mem_cons_of_mem c hx)]

/-- A string made only of non-whitespace characters is its own first
token. -/
theorem firstTok_all_nonspace {s : Str} (h : ∀ c ∈ s, isCppSpace c = false) :
    firstTok s = s := by
  cases s with
  | nil => rfl
  | cons c t =>
    rw [firstTok_cons_of_nonspace (h c (List.mem_cons_self c t))]
    rw [takeTok_all_nonspace fun x hx => h x (List.mem_cons_of_mem c hx)]

/-- Claim C10: "Remove-Item" occurs in both the tier-"3" and tier-"4"
alias lists of the built-in fallback table; the table's keys are
iterated in the `std::map`'s ascending string order "1" < "2" < "2.5" <
"3" < "4"; and because the scan returns the first tier containing a
match, every input whose case-folding is exactly "remove-item"
classifies as tier 3.0, never 4.0 — under the fallback table this
command is never classified as lockdown. -/
theorem C10_remove_item (s : Str) (h : lowerStr s = "remove-item".data) :
    "Remove-Item".data ∈ ((List.lookup "3".data tier_defaults).getD []) ∧
    "Remove-Item".data ∈ ((List.lookup "4".data tier_defaults).getD []) ∧
    (tier_defaults.map Prod.fst = (["1", "2", "2.5", "3", "4"].map String.data)) ∧
    get_tier tier_defaults s = 3 ∧ get_tier tier_defaults s ≠ 4 := by
  have hns : ∀ c ∈ s, isCppSpace c = false := by
    intro c hc
    have hmem : lowerChar c ∈ lowerStr s := List.mem_map_of_mem lowerChar hc
    rw [h] at hmem
    have htgt : ∀ x ∈ "remove-item".data, isCppSpace x = false := by decide
    exact lowerChar_nonspace rfl (htgt _ hmem)
  have h3 : get_tier tier_defaults s = 3 := by
    unfold get_tier
    have hall : s.all isCppSpace = false := by
      cases s with
      | nil => exact absurd h (by decide)
      | cons c t =>
        have := hns c (List.mem_cons_self c t)
        simp [List.all_cons, this]
    rw [if_neg (by simp [hall])]
    rw [firstTok_all_nonspace hns, h]
    rw [show findTier "remove-item".data tier_defaults = some 3 from by decide]
  refine ⟨by decide, by decide, by decide, h3, ?_⟩
  rw [h3]
  decide

/-- Witness for C10 at the mixed-case concrete input "REMOVE-Item". -/
theorem C10_remove_item_w :
    "Remove-Item".data ∈ ((List.lookup "3".data tier_defaults).getD []) ∧
    "Remove-Item".data ∈ ((List.lookup "4".data tier_defaults).getD []) ∧
    (tier_defaults.map Prod.fst = (["1", "2", "2.5", "3", "4"].map String.data)) ∧
    get_tier tier_defaults "REMOVE-Item".data = 3 ∧
    get_tier tier_defaults "REMOVE-Item".data ≠ 4 :=
  C10_remove_item "REMOVE-Item".data (by decide)

end Isaac

